import Mathlib

/-!
Verification of the scrape_metrics repository: a one-shot host-metrics
sampler.  The Python sources are shallowly embedded: text is modelled as
`List Char`, Python floats appearing only through exact comparisons,
subtraction and division are modelled as `ℚ`, machine integers as `Int`,
and the file-resident rate state as an explicit `RateStore` value threaded
through `compute_requests_per_second`.
-/

namespace ScrapeMetrics

/-! ### Python string primitives -/

/-- ASCII whitespace as recognised by Python's `str.strip` / `str.split`. -/
def isPySpace (c : Char) : Bool :=
  c = ' ' || c = '\t' || c = '\n' || c = '\r' || c = '\x0b' || c = '\x0c'

/-- Model of Python `str.strip()`: drop leading and trailing whitespace. -/
def pyStrip (s : List Char) : List Char :=
  ((s.dropWhile isPySpace).reverse.dropWhile isPySpace).reverse

/-- Model of Python `str.split('\n')`: split at every newline, keeping
empty pieces (so `"".split('\n') == ['']`). -/
def splitOnNL : List Char → List (List Char)
  | [] => [[]]
  | c :: rest =>
    let r := splitOnNL rest
    if c = '\n' then [] :: r
    else
      match r with
      | [] => [[c]]
      | l :: ls => (c :: l) :: ls

/-- Accumulator worker for `pySplitWs`. -/
def pySplitWsAux : List Char → List Char → List (List Char)
  | [], acc => if acc.isEmpty then [] else [acc.reverse]
  | c :: rest, acc =>
    if isPySpace c then
      if acc.isEmpty then pySplitWsAux rest []
      else acc.reverse :: pySplitWsAux rest []
    else pySplitWsAux rest (c :: acc)

/-- Model of Python `str.split()` (no separator): split on runs of
whitespace, producing no empty tokens. -/
def pySplitWs (s : List Char) : List (List Char) :=
  pySplitWsAux s []

/-- Model of Python `str.split(None, maxsplit)`: at most `maxsplit` splits
on whitespace runs; once the budget is exhausted the remainder (with its
leading whitespace skipped but trailing whitespace kept) is the final
token. -/
def pySplitMaxWs : Nat → List Char → List (List Char)
  | k, s =>
    let s' := s.dropWhile isPySpace
    match s' with
    | [] => []
    | _ :: _ =>
      match k with
      | 0 => [s']
      | k' + 1 =>
        s'.takeWhile (fun ch => !isPySpace ch)
          :: pySplitMaxWs k' (s'.dropWhile (fun ch => !isPySpace ch))

/-- Consume an expected literal from the front of `s`; `none` when `s`
does not start with it. -/
def dropLit : List Char → List Char → Option (List Char)
  | [], s => some s
  | _ :: _, [] => none
  | c :: cs, d :: ds => if c = d then dropLit cs ds else none

/-- Model of Python `str.startswith`. -/
def startsWithL (pre s : List Char) : Bool :=
  (dropLit pre s).isSome

/-- Validity of a Python decimal digit run: `[0-9](_[0-9]|[0-9])*`
(a single underscore is allowed only between digits). -/
def pyDigitsRest : List Char → Bool
  | [] => true
  | ['_'] => false
  | '_' :: d :: rest => d.isDigit && pyDigitsRest rest
  | c :: rest => c.isDigit && pyDigitsRest rest

/-- A nonempty Python digit run (underscore separators allowed). -/
def pyDigitsOk : List Char → Bool
  | [] => false
  | c :: rest => c.isDigit && pyDigitsRest rest

/-- Numeric value of a digit run, ignoring underscore separators. -/
def digitsVal (ds : List Char) : Nat :=
  (ds.filter (fun c => c ≠ '_')).foldl (fun a c => 10 * a + (c.toNat - 48)) 0

/-- Model of Python `int(s)` on decimal literals: surrounding whitespace,
an optional sign, then a digit run with optional underscore separators.
(Non-decimal spellings never occur in the scraped inputs.) -/
def pyInt (s : List Char) : Option Int :=
  match pyStrip s with
  | '+' :: rest => if pyDigitsOk rest then some (Int.ofNat (digitsVal rest)) else none
  | '-' :: rest => if pyDigitsOk rest then some (-(Int.ofNat (digitsVal rest))) else none
  | t => if pyDigitsOk t then some (Int.ofNat (digitsVal t)) else none

/-- Optional exponent suffix of a Python float literal (`e`/`E`, optional
sign, digits); `some 0` when absent. -/
def pyExp : List Char → Option Int
  | [] => some 0
  | e :: rest =>
    if e = 'e' ∨ e = 'E' then
      match rest with
      | '+' :: ds => if ds ≠ [] && ds.all Char.isDigit then some (Int.ofNat (digitsVal ds)) else none
      | '-' :: ds => if ds ≠ [] && ds.all Char.isDigit then some (-(Int.ofNat (digitsVal ds))) else none
      | ds => if ds ≠ [] && ds.all Char.isDigit then some (Int.ofNat (digitsVal ds)) else none
    else none

/-- The rational `mant × 10 ^ E`, built with integer arithmetic only so
that it reduces inside the kernel. -/
def pyFloatVal (mant : Nat) (E : Int) : ℚ :=
  if 0 ≤ E then mkRat (Int.ofNat (mant * 10 ^ E.toNat)) 1
  else mkRat (Int.ofNat mant) (10 ^ (-E).toNat)

/-- Unsigned mantissa with optional fractional part, then optional
exponent: the value is `(ip.fp) × 10 ^ e`. -/
def pyFloatCore (s : List Char) : Option ℚ :=
  let ip := s.takeWhile Char.isDigit
  let rest1 := s.dropWhile Char.isDigit
  match rest1 with
  | '.' :: rest2 =>
    let fp := rest2.takeWhile Char.isDigit
    let rest3 := rest2.dropWhile Char.isDigit
    if ip.isEmpty && fp.isEmpty then none
    else
      match pyExp rest3 with
      | none => none
      | some e =>
        some (pyFloatVal (digitsVal ip * 10 ^ fp.length + digitsVal fp) (e - fp.length))
  | _ =>
    if ip.isEmpty then none
    else
      match pyExp rest1 with
      | none => none
      | some e => some (pyFloatVal (digitsVal ip) e)

/-- Model of Python `float(s)` on the plain decimal literals produced by
`top`: whitespace, optional sign, digits with optional fraction and
exponent (`inf`/`nan` spellings are outside the modelled subset). -/
def pyFloat (s : List Char) : Option ℚ :=
  match pyStrip s with
  | '+' :: rest => pyFloatCore rest
  | '-' :: rest => (pyFloatCore rest).map Neg.neg
  | t => pyFloatCore t

/-- `roundHalfEvenScaled k q` is `q * k` rounded to the nearest integer
with ties to even — the rounding Python's `format` applies — computed with
integer arithmetic only so that it reduces inside the kernel. -/
def roundHalfEvenScaled (k : Nat) (q : ℚ) : Int :=
  let N : Int := q.num * Int.ofNat k
  let D : Int := Int.ofNat q.den
  let f : Int := N.ediv D
  let r : Int := N - f * D
  if 2 * r < D then f
  else if D < 2 * r then f + 1
  else if f % 2 = 0 then f else f + 1

/-- Two-digit left pad of a fractional part below `100`. -/
def pad2 (n : Nat) : String :=
  if n < 10 then "0" ++ toString n else toString n

/-- Model of Python `f"{x:.2f}"` for the non-negative rationals this
program formats. -/
def fmt2 (q : ℚ) : String :=
  let n := roundHalfEvenScaled 100 q
  let sgn := if n < 0 then "-" else ""
  let m := n.natAbs
  sgn ++ toString (m / 100) ++ "." ++ pad2 (m % 100)

/-- Model of Python `f"{x:.1f}"` for the non-negative rationals this
program formats. -/
def fmt1 (q : ℚ) : String :=
  let n := roundHalfEvenScaled 10 q
  let sgn := if n < 0 then "-" else ""
  let m := n.natAbs
  sgn ++ toString (m / 10) ++ "." ++ toString (m % 10)

/-! ### StatusPageParser — `get_nginx_stub_status`

`get_nginx_stub_status` fetches the stub-status page and parses it; a
transport/HTTP failure is the `none` input, a fetched body is `some text`.
-/

/-- The `"Active connections:"` line marker. -/
def activeConnMarker : List Char :=
  ['A', 'c', 't', 'i', 'v', 'e', ' ', 'c', 'o', 'n', 'n', 'e', 'c', 't', 'i', 'o', 'n', 's', ':']

/-- The active-connections field: the first line starting with
`"Active connections:"` contributes `int(parts[2])`, any failure giving
`0`. -/
def parse_active (lines : List (List Char)) : Int :=
  match lines.find? (fun l => startsWithL activeConnMarker l) with
  | none => 0
  | some l =>
    let parts := pySplitWs l
    if 3 ≤ parts.length then (pyInt (parts.getD 2 [])).getD 0 else 0

/-- The total-requests field: the third line must split into exactly three
whitespace tokens, of which `int(parts[2])` is taken, any failure giving
`0`. -/
def parse_total (lines : List (List Char)) : Int :=
  let parts := pySplitWs (pyStrip (lines.getD 2 []))
  if parts.length = 3 then (pyInt (parts.getD 2 [])).getD 0 else 0

/-- `get_nginx_stub_status`: `none` models a `requests` failure (the
`except` branch), `some raw` a fetched body.  Returns
`(active_connections, total_requests)`. -/
def get_nginx_stub_status : Option (List Char) → Int × Int
  | none => (0, 0)
  | some raw =>
    let text := pyStrip raw
    if text.isEmpty then (0, 0)
    else
      let lines := splitOnNL text
      if lines.length < 3 then (0, 0)
      else (parse_active lines, parse_total lines)

/-! ### RateTracker — `compute_requests_per_second` -/

/-- The persisted state file: absent, unreadable/corrupt JSON, or a valid
record `{last_requests, last_time}` as this program writes it. -/
inductive RateStore where
  | absent : RateStore
  | corrupt : RateStore
  | ok (last_requests : Int) (last_time : ℚ) : RateStore
deriving DecidableEq, Repr

/-- The shared tail of `compute_requests_per_second` once
`(last_requests, last_time)` have been obtained. -/
def rateStep (last_requests : Int) (last_time : ℚ) (current_requests : Int) (now : ℚ) :
    ℚ × RateStore :=
  let elapsed : ℚ := if last_time < now then now - last_time else 1
  let diff : Int := current_requests - last_requests
  let diff : Int := if diff < 0 then 0 else diff
  ((diff : ℚ) / elapsed, RateStore.ok current_requests now)

/-- `compute_requests_per_second`: reads the state store, derives the
rate, and rewrites the store with `{current_requests, now}`.  The first
component is the returned rate, the second the store contents
afterwards. -/
def compute_requests_per_second (store : RateStore) (current_requests : Int) (now : ℚ) :
    ℚ × RateStore :=
  match store with
  | RateStore.absent => (0, RateStore.ok current_requests now)
  | RateStore.corrupt => rateStep current_requests now current_requests now
  | RateStore.ok lr lt => rateStep lr lt current_requests now

/-! ### Sampler — `get_top_processes_by_cpu` / `get_top_processes_by_memory`

The process enumeration is modelled as the list of per-process outcomes:
`ok name value` for a successful read (`name` empty when psutil reports a
falsy name), `failed` for a `NoSuchProcess`/`AccessDenied`/`ZombieProcess`
exception during the read. -/

/-- One enumerated process's read outcome. -/
inductive PEntry where
  | ok (name : String) (val : ℚ) : PEntry
  | failed : PEntry
deriving DecidableEq, Repr

/-- The sample-collection loop body: a successful read contributes
`(name or "-.", value)`, a per-process failure contributes the sentinel
`("-.", 0.0)`. -/
def collect : List PEntry → List (String × ℚ)
  | [] => []
  | PEntry.ok name v :: rest => (if name = "" then "-." else name, v) :: collect rest
  | PEntry.failed :: rest => ("-.", 0) :: collect rest

/-- The sort key order used by `processes.sort(key=lambda x: x[1],
reverse=True)`: `a` may precede `b` exactly when `a`'s metric value is at
least `b`'s. -/
def valGE (a b : String × ℚ) : Prop :=
  b.2 ≤ a.2

instance : DecidableRel valGE := fun a b =>
  inferInstanceAs (Decidable (b.2 ≤ a.2))

instance : IsTotal (String × ℚ) valGE :=
  ⟨fun a b => le_total b.2 a.2⟩

instance : IsTrans (String × ℚ) valGE :=
  ⟨fun _ _ _ h1 h2 => le_trans h2 h1⟩

/-- Python's `list.sort(key=lambda x: x[1], reverse=True)`: a stable sort
descending on the metric value.  Stable sorts under a total preorder agree
extensionally, so stable insertion sort models CPython's timsort. -/
def sortDescByVal (l : List (String × ℚ)) : List (String × ℚ) :=
  l.insertionSort valGE

/-- `get_top_processes_by_cpu(n)` applied to an enumeration outcome:
collect, sort descending, take the first `n` (no padding here). -/
def get_top_processes_by_cpu (entries : List PEntry) (n : Nat) : List (String × ℚ) :=
  (sortDescByVal (collect entries)).take n

/-- `get_top_processes_by_memory(n)`: identical pipeline on the memory
metric. -/
def get_top_processes_by_memory (entries : List PEntry) (n : Nat) : List (String × ℚ) :=
  (sortDescByVal (collect entries)).take n

/-- `main`'s `while len(top) < n: top.append(("-.", 0.0))` padding. -/
def padTop (l : List (String × ℚ)) (n : Nat) : List (String × ℚ) :=
  l ++ List.replicate (n - l.length) ("-.", 0)

/-! ### RowFormatter -/

/-- The reduced variant's column loop: each `(name, value)` pair
contributes the name and the `f"{value:.2f}"` rendering. -/
def pairFields : List (String × ℚ) → List String
  | [] => []
  | (nm, v) :: rest => nm :: fmt2 v :: pairFields rest

/-- `scrape_metrics_psutil_reduced.main`'s row assembly from already-built
top lists. -/
def build_row_reduced (timestamp : String) (cpu_usage mem_usage : ℚ)
    (top_cpu top_mem : List (String × ℚ)) (active : Int) (rps : ℚ) : List String :=
  [timestamp, fmt2 cpu_usage] ++ pairFields top_cpu ++ [fmt2 mem_usage] ++ pairFields top_mem
    ++ [toString active, fmt2 rps]

/-- `scrape_metrics_psutil_reduced.main` end to end on the sampling
outcomes: top lists are computed, padded to five entries, and formatted. -/
def main_row_reduced (timestamp : String) (cpu_usage mem_usage : ℚ)
    (cpu_entries mem_entries : List PEntry) (active : Int) (rps : ℚ) : List String :=
  build_row_reduced timestamp cpu_usage mem_usage
    (padTop (get_top_processes_by_cpu cpu_entries 5) 5)
    (padTop (get_top_processes_by_memory mem_entries 5) 5) active rps

/-- `get_metrics_psutil.get_top_cpu_info`'s top-five list: sort the
samples descending and render each value with `f"{v:.1f}"`. -/
def get_top_cpu_info_top (procs : List (String × ℚ)) : List (String × String) :=
  ((sortDescByVal procs).take 5).map (fun p => (p.1, fmt1 p.2))

/-- `get_metrics_psutil.main`'s flattening loop: slot `i` contributes the
pair when `i < len(top)` and the pair `("", "")` otherwise. -/
def top_fields_gm (top : List (String × String)) : List String :=
  (List.range 5).foldr
    (fun i acc =>
      match top[i]? with
      | some p => p.1 :: p.2 :: acc
      | none => "" :: "" :: acc) []

/-- `get_metrics_psutil.main`'s row assembly (top-list values arrive as
already-formatted strings). -/
def main_row_gm (timestamp : String) (cpu_usage mem_usage : ℚ)
    (top_cpu top_mem : List (String × String)) (active : Int) (rps : ℚ) : List String :=
  [timestamp, fmt2 cpu_usage] ++ top_fields_gm top_cpu ++ [fmt2 mem_usage]
    ++ top_fields_gm top_mem ++ [toString active, fmt2 rps]

/-! ### ProcessTableParser — `t_scrape_metrics_top.get_top_mem_info`

The `top` output is modelled as the list of its lines. -/

/-- Model of `re.match` for
`^MiB Mem\s*:\s*(\S+)\s+total,\s*(\S+)\s+free,\s*(\S+)\s+used,\s*(\S+)\s+buff/cache`
(maximal munch coincides with backtracking here because `\S+` cannot
shrink across whitespace).  Returns the four groups. -/
def matchMemLine (s : List Char) : Option (List Char × List Char × List Char × List Char) :=
  match dropLit "MiB Mem".toList s with
  | none => none
  | some s1 =>
    match dropLit [':'] (s1.dropWhile isPySpace) with
    | none => none
    | some s2 =>
      let s3 := s2.dropWhile isPySpace
      let g1 := s3.takeWhile (fun c => !isPySpace c)
      let s4 := s3.dropWhile (fun c => !isPySpace c)
      if g1.isEmpty then none
      else
        match s4 with
        | [] => none
        | c4 :: _ =>
          if !isPySpace c4 then none
          else
            match dropLit "total,".toList (s4.dropWhile isPySpace) with
            | none => none
            | some s5 =>
              let s6 := s5.dropWhile isPySpace
              let g2 := s6.takeWhile (fun c => !isPySpace c)
              let s7 := s6.dropWhile (fun c => !isPySpace c)
              if g2.isEmpty then none
              else
                match s7 with
                | [] => none
                | c7 :: _ =>
                  if !isPySpace c7 then none
                  else
                    match dropLit "free,".toList (s7.dropWhile isPySpace) with
                    | none => none
                    | some s8 =>
                      let s9 := s8.dropWhile isPySpace
                      let g3 := s9.takeWhile (fun c => !isPySpace c)
                      let s10 := s9.dropWhile (fun c => !isPySpace c)
                      if g3.isEmpty then none
                      else
                        match s10 with
                        | [] => none
                        | c10 :: _ =>
                          if !isPySpace c10 then none
                          else
                            match dropLit "used,".toList (s10.dropWhile isPySpace) with
                            | none => none
                            | some s11 =>
                              let s12 := s11.dropWhile isPySpace
                              let g4 := s12.takeWhile (fun c => !isPySpace c)
                              let s13 := s12.dropWhile (fun c => !isPySpace c)
                              if g4.isEmpty then none
                              else
                                match s13 with
                                | [] => none
                                | c13 :: _ =>
                                  if !isPySpace c13 then none
                                  else
                                    match dropLit "buff/cache".toList (s13.dropWhile isPySpace) with
                                    | none => none
                                    | some _ => some (g1, g2, g3, g4)

/-- Evaluate one matched summary line: the four groups go through
`float()`; any `ValueError` resets the aggregate to `0.0`; a zero total
raises `ZeroDivisionError`, which the code does not catch. -/
def memLineValue (g : List Char × List Char × List Char × List Char) : Except Unit ℚ :=
  match pyFloat g.1, pyFloat g.2.1, pyFloat g.2.2.1, pyFloat g.2.2.2 with
  | some total, some _, some used, some _ =>
    if total = 0 then Except.error () else Except.ok (used / total * 100)
  | _, _, _, _ => Except.ok 0

/-- The header-search loop of `get_top_mem_info`: walk the lines keeping
the latest aggregate value, stopping at the first line whose stripped form
starts with `"PID"` and returning its index (`0` when no header line
exists, as the Python loop leaves `header_index = 0`). -/
def memScanAux : List (List Char) → Nat → ℚ → Except Unit (ℚ × Nat)
  | [], _, acc => Except.ok (acc, 0)
  | line :: rest, i, acc =>
    let stripped := pyStrip line
    match
      (match matchMemLine stripped with
        | some g => memLineValue g
        | none => Except.ok acc) with
    | Except.error e => Except.error e
    | Except.ok acc' =>
      if startsWithL "PID".toList stripped then Except.ok (acc', i)
      else memScanAux rest (i + 1) acc'

/-- The per-process row loop: the first five lines after the header,
split with `split(None, 11)`; rows with fewer than 12 columns are
skipped; a kept row contributes `(cols[11], cols[9])`. -/
def parseRows (ls : List (List Char)) : List (List Char × List Char) :=
  (ls.take 5).filterMap (fun line =>
    let cols := pySplitMaxWs 11 line
    if cols.length < 12 then none
    else some (cols.getD 11 [], cols.getD 9 []))

/-- `t_scrape_metrics_top.get_top_mem_info` on the captured `top` output
lines: the memory aggregate and the top-five rows (name, %MEM text).
`Except.error` models the uncaught `ZeroDivisionError`. -/
def get_top_mem_info (output : List (List Char)) :
    Except Unit (ℚ × List (List Char × List Char)) :=
  match memScanAux output 0 0 with
  | Except.error e => Except.error e
  | Except.ok (memUsage, hIdx) => Except.ok (memUsage, parseRows (output.drop (hIdx + 1)))

/-! ### RateTracker theorems -/

/-- The returned rate is never negative: the counter difference is clamped
at `0` and the elapsed time is positive. -/
theorem rateStep_fst_nonneg (lr : Int) (lt : ℚ) (c : Int) (now : ℚ) :
    0 ≤ (rateStep lr lt c now).1 := by
  unfold rateStep
  dsimp only
  apply div_nonneg
  · split
    · norm_num
    · rename_i h
      exact_mod_cast (by omega : (0 : Int) ≤ c - lr)
  · split
    · rename_i h
      linarith
    · norm_num

/-- C4. With a corrupt or unreadable state file the load degrades to the
synthetic baseline `{last_counter = current, last_time = now}`, the call
returns `0.0` without raising, and the store is rewritten with
`{current, now}`. -/
theorem c4_corrupt_state_degrades (c : Int) (now : ℚ) :
    compute_requests_per_second RateStore.corrupt c now = (0, RateStore.ok c now) := by
  simp [compute_requests_per_second, rateStep]

/-- C5. With persisted `{c0, t0}` and a later reading `c1` at `t1`
(`c0 < c1`, `t0 < t1`), the call returns `(c1 - c0) / (t1 - t0)` exactly
and rewrites the store with `{c1, t1}`. -/
theorem c5_monotonic_sequence (c0 c1 : Int) (t0 t1 : ℚ) (hc : c0 < c1) (ht : t0 < t1) :
    compute_requests_per_second (RateStore.ok c0 t0) c1 t1 =
      (((c1 - c0 : Int) : ℚ) / (t1 - t0), RateStore.ok c1 t1) := by
  have hd : ¬ (c1 - c0 < 0) := by omega
  simp [compute_requests_per_second, rateStep, ht, hd]

/-- Witness for C5 — the spec's end-to-end scenario: store `{200, now-10}`
and `compute_rate(250)` returning `5.0`. -/
theorem c5_monotonic_sequence_witness :
    compute_requests_per_second (RateStore.ok 200 0) 250 10 = (5, RateStore.ok 250 10) := by
  rw [c5_monotonic_sequence 200 250 0 10 (by norm_num) (by norm_num)]
  norm_num

/-- C6. The returned rate is always `≥ 0`, and a counter strictly below
the persisted one (counter reset) yields exactly `0.0`. -/
theorem c6_rate_nonneg_and_reset_zero (store : RateStore) (c : Int) (now : ℚ) :
    0 ≤ (compute_requests_per_second store c now).1 ∧
      ∀ lr lt, store = RateStore.ok lr lt → c < lr →
        (compute_requests_per_second store c now).1 = 0 := by
  constructor
  · cases store with
    | absent => simp [compute_requests_per_second]
    | corrupt => exact rateStep_fst_nonneg _ _ _ _
    | ok lr lt => exact rateStep_fst_nonneg _ _ _ _
  · intro lr lt hstore hlt
    subst hstore
    have hd : c - lr < 0 := by omega
    simp [compute_requests_per_second, rateStep, hd]

/-- Witness for C6 at a concrete counter reset: persisted `5`, current
`3`. -/
theorem c6_rate_nonneg_and_reset_zero_witness :
    0 ≤ (compute_requests_per_second (RateStore.ok 5 0) 3 10).1 ∧
      (compute_requests_per_second (RateStore.ok 5 0) 3 10).1 = 0 :=
  ⟨(c6_rate_nonneg_and_reset_zero (RateStore.ok 5 0) 3 10).1,
    (c6_rate_nonneg_and_reset_zero (RateStore.ok 5 0) 3 10).2 5 0 rfl (by norm_num)⟩

/-- C7. On a fresh store the first call returns `0.0` and persists
`{current_counter, now}`. -/
theorem c7_fresh_store_first_call (c : Int) (now : ℚ) :
    compute_requests_per_second RateStore.absent c now = (0, RateStore.ok c now) := rfl

/-- C10. A `compute_requests_per_second(0)` call — the counter produced
whenever the status fetch or parse collapses to `(0, 0)` — overwrites the
persisted counter with `0`, so the next call with `c > 0` at a later time
returns `c / elapsed` instead of the true rate. -/
theorem c10_absorbed_failure_inflates_next_rate (store : RateStore) (c : Int) (t1 t2 : ℚ)
    (ht : t1 < t2) (hc : 0 < c) :
    (compute_requests_per_second store 0 t1).2 = RateStore.ok 0 t1 ∧
      (compute_requests_per_second (compute_requests_per_second store 0 t1).2 c t2).1 =
        (c : ℚ) / (t2 - t1) := by
  have hs : (compute_requests_per_second store 0 t1).2 = RateStore.ok 0 t1 := by
    cases store <;> simp [compute_requests_per_second, rateStep]
  refine ⟨hs, ?_⟩
  rw [hs]
  have hd : ¬ (c < 0) := by omega
  simp [compute_requests_per_second, rateStep, ht, hd]

/-- Witness for C10: a failed fetch at time `0` followed by a reading of
`80` at time `10` reports `8.0`. -/
theorem c10_absorbed_failure_inflates_next_rate_witness :
    (compute_requests_per_second (RateStore.ok 300 (-5)) 0 0).2 = RateStore.ok 0 0 ∧
      (compute_requests_per_second
        (compute_requests_per_second (RateStore.ok 300 (-5)) 0 0).2 80 10).1 = 8 := by
  have h := c10_absorbed_failure_inflates_next_rate (RateStore.ok 300 (-5)) 80 0 10
    (by norm_num) (by norm_num)
  refine ⟨h.1, ?_⟩
  rw [h.2]
  norm_num

/-! ### StatusPageParser theorems -/

/-- With at least three lines the parse reaches the two field parsers. -/
theorem get_stub_some_eq (t : List Char) (h3 : 2 < (splitOnNL (pyStrip t)).length) :
    get_nginx_stub_status (some t) =
      (parse_active (splitOnNL (pyStrip t)), parse_total (splitOnNL (pyStrip t))) := by
  rcases hps : pyStrip t with _ | ⟨c, cs⟩
  · rw [hps] at h3
    simp [splitOnNL] at h3
  · rw [hps] at h3
    have hlt : ¬ (splitOnNL (c :: cs)).length < 3 := by omega
    simp [get_nginx_stub_status, hps, hlt]

/-- C1 (counterexample): the third line `"a b"` is malformed (only two
whitespace fields), yet a well-formed `"Active connections: 5"` line still
parses, so the result is `(5, 0)`, not `(0, 0)` as the claim requires. -/
theorem c1_counterexample :
    (pySplitWs ("a b").toList).length ≠ 3 ∧
      get_nginx_stub_status
          (some ("Active connections: 5\nserver accepts handled requests\na b").toList) = (5, 0) ∧
      ((5, 0) : Int × Int) ≠ (0, 0) := by
  refine ⟨by decide, by decide, by decide⟩

/-- C1 (amended): deviations degrade field-wise, never raising.  A fetch
failure or fewer than three (trimmed) lines yields `(0, 0)`; otherwise a
missing `"Active connections:"` line, or one whose third whitespace token
is absent or non-integer, zeroes only `active_connections`, and a third
line without exactly three whitespace tokens, or whose third token is
non-integer, zeroes only `total_requests`. -/
theorem c1_amended_fieldwise_degradation :
    (get_nginx_stub_status none = (0, 0)) ∧
    (∀ t : List Char, (splitOnNL (pyStrip t)).length < 3 →
      get_nginx_stub_status (some t) = (0, 0)) ∧
    (∀ t : List Char, 2 < (splitOnNL (pyStrip t)).length →
      (splitOnNL (pyStrip t)).find? (fun ln => startsWithL activeConnMarker ln) = none →
      (get_nginx_stub_status (some t)).1 = 0) ∧
    (∀ t l : List Char, 2 < (splitOnNL (pyStrip t)).length →
      (splitOnNL (pyStrip t)).find? (fun ln => startsWithL activeConnMarker ln) = some l →
      ((pySplitWs l).length < 3 ∨ pyInt ((pySplitWs l).getD 2 []) = none) →
      (get_nginx_stub_status (some t)).1 = 0) ∧
    (∀ t : List Char, 2 < (splitOnNL (pyStrip t)).length →
      ((pySplitWs (pyStrip ((splitOnNL (pyStrip t)).getD 2 []))).length ≠ 3 ∨
        pyInt ((pySplitWs (pyStrip ((splitOnNL (pyStrip t)).getD 2 []))).getD 2 []) = none) →
      (get_nginx_stub_status (some t)).2 = 0) := by
  refine ⟨rfl, ?_, ?_, ?_, ?_⟩
  · intro t h
    rcases hps : pyStrip t with _ | ⟨c, cs⟩
    · simp [get_nginx_stub_status, hps]
    · rw [hps] at h
      simp [get_nginx_stub_status, hps, h]
  · intro t h3 hfind
    rw [get_stub_some_eq t h3]
    simp [parse_active, hfind]
  · intro t l h3 hfind hbad
    rw [get_stub_some_eq t h3]
    rcases hbad with hlen | hint
    · have : ¬ 3 ≤ (pySplitWs l).length := by omega
      simp [parse_active, hfind, this]
    · simp only [List.getD_eq_getElem?_getD] at hint
      simp [parse_active, hfind, hint]
  · intro t h3 hbad
    rw [get_stub_some_eq t h3]
    rcases hbad with hlen | hint
    · simp only [List.getD_eq_getElem?_getD] at hlen
      simp [parse_total, hlen]
    · simp only [List.getD_eq_getElem?_getD] at hint
      simp [parse_total, hint]

/-- Witness for the amended C1 at concrete deviating inputs: a two-line
text, a text whose active line has a non-integer token, and a text whose
third line has four fields. -/
theorem c1_amended_fieldwise_degradation_witness :
    get_nginx_stub_status (some ("Active connections: 1\nx").toList) = (0, 0) ∧
      (get_nginx_stub_status (some ("Active connections: zz\nb\n 1 2 3").toList)).1 = 0 ∧
      (get_nginx_stub_status (some ("a\nb\n 1 2 3 4").toList)).2 = 0 := by
  refine ⟨c1_amended_fieldwise_degradation.2.1 _ (by decide),
    c1_amended_fieldwise_degradation.2.2.2.1 _ ("Active connections: zz").toList (by decide)
      (by decide) (Or.inr (by decide)),
    c1_amended_fieldwise_degradation.2.2.2.2 _ (by decide) (Or.inl (by decide))⟩

/-- C8. For a status text whose (trimmed) third line splits into exactly
three integer tokens `A H T` and whose first `"Active connections:"` line
carries an integer third token `C`, the parse returns `(C, T)`. -/
theorem c8_wellformed_status_parse (t l sa sh st : List Char) (A H T C : Int)
    (hlen : 2 < (splitOnNL (pyStrip t)).length)
    (hfind : (splitOnNL (pyStrip t)).find? (fun ln => startsWithL activeConnMarker ln) = some l)
    (hgeq : 3 ≤ (pySplitWs l).length)
    (hC : pyInt ((pySplitWs l).getD 2 []) = some C)
    (hthird : pySplitWs (pyStrip ((splitOnNL (pyStrip t)).getD 2 [])) = [sa, sh, st])
    (hA : pyInt sa = some A) (hH : pyInt sh = some H) (hT : pyInt st = some T) :
    get_nginx_stub_status (some t) = (C, T) := by
  rw [get_stub_some_eq t hlen]
  unfold parse_active parse_total
  rw [hfind, hthird]
  simp only [List.getD_eq_getElem?_getD] at hC
  simp [hgeq, hC, hT]

/-- Witness for C8 — the spec's end-to-end scenario text parses to
`(5, 250)`. -/
theorem c8_wellformed_status_parse_witness :
    get_nginx_stub_status
        (some ("Active connections: 5\nserver accepts handled requests\n 100 100 250\nReading: 0 Writing: 1 Waiting: 4").toList)
      = (5, 250) :=
  c8_wellformed_status_parse _ ("Active connections: 5").toList
    ("100").toList ("100").toList ("250").toList 100 100 250 5
    (by decide) (by decide) (by decide) (by decide) (by decide) (by decide) (by decide) (by decide)

/-! ### Sampler theorems -/

theorem collect_length (es : List PEntry) : (collect es).length = es.length := by
  induction es with
  | nil => rfl
  | cons e es ih => cases e <;> simp [collect, ih]

theorem sortDescByVal_length (l : List (String × ℚ)) :
    (sortDescByVal l).length = l.length :=
  (List.perm_insertionSort valGE l).length_eq

theorem mem_sortDescByVal {x : String × ℚ} {l : List (String × ℚ)} :
    x ∈ sortDescByVal l ↔ x ∈ l :=
  List.mem_insertionSort valGE

/-- Filtering on one metric value commutes with `orderedInsert`: every
element the insertion walks past has a strictly larger value. -/
theorem filter_orderedInsert (v : ℚ) (x : String × ℚ) (l : List (String × ℚ)) :
    (List.orderedInsert valGE x l).filter (fun p => decide (p.2 = v)) =
      if x.2 = v then x :: l.filter (fun p => decide (p.2 = v))
      else l.filter (fun p => decide (p.2 = v)) := by
  induction l with
  | nil => by_cases hx : x.2 = v <;> simp [List.orderedInsert, hx]
  | cons y ys ih =>
    by_cases hr : valGE x y
    · by_cases hx : x.2 = v <;> by_cases hy : y.2 = v <;>
        simp [List.orderedInsert, hr, hx, hy]
    · have hlt : x.2 < y.2 := lt_of_not_le (by simpa [valGE] using hr)
      by_cases hx : x.2 = v
      · have hy : ¬ y.2 = v := by
          rw [← hx]
          exact (ne_of_gt hlt)
        simp [List.orderedInsert, hr, hx, hy, ih]
      · by_cases hy : y.2 = v <;> simp [List.orderedInsert, hr, hx, hy, ih]

/-- Stability of the descending sort: for each metric value the
equal-valued elements keep their original enumeration order. -/
theorem filter_sortDescByVal (v : ℚ) (l : List (String × ℚ)) :
    (sortDescByVal l).filter (fun p => decide (p.2 = v)) =
      l.filter (fun p => decide (p.2 = v)) := by
  induction l with
  | nil => rfl
  | cons a l ih =>
    simp only [sortDescByVal, List.insertionSort] at ih ⊢
    rw [filter_orderedInsert]
    by_cases ha : a.2 = v <;> simp [ha, ih]

theorem get_top_cpu_length (es : List PEntry) (n : Nat) :
    (get_top_processes_by_cpu es n).length = min n es.length := by
  simp [get_top_processes_by_cpu, List.length_take, sortDescByVal_length, collect_length]

theorem padTop_get_top_length (es : List PEntry) (n : Nat) :
    (padTop (get_top_processes_by_cpu es n) n).length = n := by
  have h := get_top_cpu_length es n
  simp only [padTop, List.length_append, List.length_replicate]
  omega

/-- Everything past the real samples in the padded top list is the
sentinel. -/
theorem padTop_get_top_drop (es : List PEntry) (n : Nat) :
    (padTop (get_top_processes_by_cpu es n) n).drop (collect es).length =
      List.replicate (n - (collect es).length) ("-.", 0) := by
  have hlen : (get_top_processes_by_cpu es n).length = min n (collect es).length := by
    simp [get_top_processes_by_cpu, List.length_take, sortDescByVal_length]
  by_cases hmn : (collect es).length ≤ n
  · have h1 : (get_top_processes_by_cpu es n).length = (collect es).length := by
      rw [hlen]; omega
    rw [padTop, h1, ← h1, List.drop_left]
  · have h2 : n - (get_top_processes_by_cpu es n).length = 0 := by omega
    rw [padTop, h2]
    simp only [List.replicate, List.append_nil]
    have h3 : n - (collect es).length = 0 := by omega
    rw [h3]
    simp only [List.replicate]
    apply List.drop_eq_nil_of_le
    omega

/-- C2 (counterexample): on an empty process enumeration
`get_top_processes_by_cpu(5)` returns no entries at all — the padding to
exactly `n` lives in `main`, not in this function. -/
theorem c2_counterexample : (get_top_processes_by_cpu [] 5).length ≠ 5 := by decide

/-- C2 (amended): `get_top_processes_by_cpu` / `get_top_processes_by_memory`
return the `min n count` largest samples, non-increasing, ties keeping
enumeration order, failed reads contributing the sentinel; after `main`'s
padding the list has exactly `n` entries, is still non-increasing (for the
non-negative metric values psutil produces), and every padded slot equals
`("-.", 0.0)`. -/
theorem c2_amended_top_n (es : List PEntry) (n : Nat)
    (h : ∀ p ∈ collect es, (0 : ℚ) ≤ p.2) :
    get_top_processes_by_memory es n = get_top_processes_by_cpu es n ∧
    (get_top_processes_by_cpu es n).length = min n es.length ∧
    (padTop (get_top_processes_by_cpu es n) n).length = n ∧
    List.Sorted valGE (padTop (get_top_processes_by_cpu es n) n) ∧
    (padTop (get_top_processes_by_cpu es n) n).drop (collect es).length =
      List.replicate (n - (collect es).length) ("-.", 0) ∧
    ∀ v : ℚ, (sortDescByVal (collect es)).filter (fun p => decide (p.2 = v)) =
      (collect es).filter (fun p => decide (p.2 = v)) := by
  refine ⟨rfl, get_top_cpu_length es n, padTop_get_top_length es n, ?_,
    padTop_get_top_drop es n, fun v => filter_sortDescByVal v (collect es)⟩
  have hsorted : List.Sorted valGE (sortDescByVal (collect es)) :=
    List.sorted_insertionSort valGE (collect es)
  have htake : List.Sorted valGE (get_top_processes_by_cpu es n) :=
    List.Pairwise.sublist (List.take_sublist n _) hsorted
  have hrep : List.Sorted valGE (List.replicate (n - (get_top_processes_by_cpu es n).length)
      (("-.", 0) : String × ℚ)) :=
    List.pairwise_replicate.mpr (Or.inr (by simp [valGE]))
  rw [List.Sorted, padTop, List.pairwise_append]
  refine ⟨htake, hrep, ?_⟩
  intro a ha b hb
  have hmem : a ∈ collect es := by
    have : a ∈ sortDescByVal (collect es) := List.mem_of_mem_take ha
    exact mem_sortDescByVal.mp this
  have hb' : b = (("-.", 0) : String × ℚ) := List.eq_of_mem_replicate hb
  rw [hb']
  exact h a hmem

/-- Witness for C2 (amended) at a three-entry enumeration containing one
failed read, with `n = 5`. -/
theorem c2_amended_top_n_witness :
    (get_top_processes_by_cpu [PEntry.ok "a" 1, PEntry.failed, PEntry.ok "b" 3] 5).length
        = min 5 3 ∧
      (padTop (get_top_processes_by_cpu
          [PEntry.ok "a" 1, PEntry.failed, PEntry.ok "b" 3] 5) 5).length = 5 ∧
      (padTop (get_top_processes_by_cpu
            [PEntry.ok "a" 1, PEntry.failed, PEntry.ok "b" 3] 5) 5).drop
          (collect [PEntry.ok "a" 1, PEntry.failed, PEntry.ok "b" 3]).length =
        List.replicate (5 - (collect [PEntry.ok "a" 1, PEntry.failed, PEntry.ok "b" 3]).length)
          ("-.", 0) := by
  have h := c2_amended_top_n [PEntry.ok "a" 1, PEntry.failed, PEntry.ok "b" 3] 5 (by decide)
  exact ⟨h.2.1, h.2.2.1, h.2.2.2.2.1⟩

/-! ### RowFormatter theorems -/

theorem pairFields_length (l : List (String × ℚ)) : (pairFields l).length = 2 * l.length := by
  induction l with
  | nil => rfl
  | cons p rest ih =>
    cases p
    simp [pairFields, ih]
    omega

theorem exists_five {α : Type} (l : List α) (h : l.length = 5) :
    ∃ a b c d e, l = [a, b, c, d, e] := by
  rcases l with _ | ⟨a, l⟩
  · simp at h
  rcases l with _ | ⟨b, l⟩
  · simp at h
  rcases l with _ | ⟨c, l⟩
  · simp at h
  rcases l with _ | ⟨d, l⟩
  · simp at h
  rcases l with _ | ⟨e, l⟩
  · simp at h
  have hl : l = [] := by simpa using h
  exact ⟨a, b, c, d, e, by rw [hl]⟩

theorem getD_replicate_of_lt {α : Type} (k j : Nat) (s d : α) (h : j < k) :
    (List.replicate k s).getD j d = s := by
  rw [List.getD_eq_getElem?_getD, List.getElem?_replicate]
  simp [h]

/-- `get_top_processes_by_memory` is the same pipeline as
`get_top_processes_by_cpu`. -/
theorem get_top_mem_eq_cpu : get_top_processes_by_memory = get_top_processes_by_cpu := rfl

/-- Any padded slot past the enumeration's end holds the sentinel pair. -/
theorem padTop_sentinel_slot (es : List PEntry) (n i : Nat) (hi : i < n)
    (hce : es.length ≤ i) :
    (padTop (get_top_processes_by_cpu es n) n).getD i ("", 0) = ("-.", 0) := by
  have hm : (collect es).length = es.length := collect_length es
  have key := padTop_get_top_drop es n
  rw [hm] at key
  have h1 : ((padTop (get_top_processes_by_cpu es n) n).drop es.length)[i - es.length]? =
      (padTop (get_top_processes_by_cpu es n) n)[i]? := by
    rw [List.getElem?_drop]
    congr 1
    omega
  rw [List.getD_eq_getElem?_getD, ← h1, key, List.getElem?_replicate]
  have h2 : i - es.length < n - es.length := by omega
  simp [h2]

/-- Field positions of the reduced row when both top lists have exactly
five entries: slot `i`'s name and two-decimal value sit at indices
`2 + 2i` / `3 + 2i` (CPU) and `13 + 2i` / `14 + 2i` (memory). -/
theorem build_row_reduced_getD (ts : String) (cpu mem : ℚ)
    (tc tm : List (String × ℚ)) (act : Int) (rps : ℚ)
    (htc : tc.length = 5) (htm : tm.length = 5) (i : Nat) (hi : i < 5) :
    (build_row_reduced ts cpu mem tc tm act rps).getD (2 + 2 * i) "" = (tc.getD i ("", 0)).1 ∧
    (build_row_reduced ts cpu mem tc tm act rps).getD (3 + 2 * i) "" =
      fmt2 ((tc.getD i ("", 0)).2) ∧
    (build_row_reduced ts cpu mem tc tm act rps).getD (13 + 2 * i) "" = (tm.getD i ("", 0)).1 ∧
    (build_row_reduced ts cpu mem tc tm act rps).getD (14 + 2 * i) "" =
      fmt2 ((tm.getD i ("", 0)).2) := by
  obtain ⟨a1, a2, a3, a4, a5, rfl⟩ := exists_five tc htc
  obtain ⟨b1, b2, b3, b4, b5, rfl⟩ := exists_five tm htm
  interval_cases i <;> exact ⟨rfl, rfl, rfl, rfl⟩

/-- C3 (counterexample): in `get_metrics_psutil.main`, with one real
top-CPU process `("nginx", 4.5)`, the second CPU slot renders as a pair of
empty strings — not the sentinel pair — and the first slot's value is the
1-decimal `"4.5"`, not a 2-decimal rendering. -/
theorem c3_counterexample :
    (main_row_gm "t" (mkRat 123 10) 0 (get_top_cpu_info_top [("nginx", mkRat 9 2)]) [] 0 0).getD 4 "?"
        = "" ∧
      (main_row_gm "t" (mkRat 123 10) 0 (get_top_cpu_info_top [("nginx", mkRat 9 2)]) [] 0 0).getD 5 "?"
        = "" ∧
      (main_row_gm "t" (mkRat 123 10) 0 (get_top_cpu_info_top [("nginx", mkRat 9 2)]) [] 0 0).getD 4 "?"
        ≠ "-." ∧
      (main_row_gm "t" (mkRat 123 10) 0 (get_top_cpu_info_top [("nginx", mkRat 9 2)]) [] 0 0).getD 3 "?"
        = "4.5" ∧
      (main_row_gm "t" (mkRat 123 10) 0 (get_top_cpu_info_top [("nginx", mkRat 9 2)]) [] 0 0).getD 3 "?"
        ≠ "4.50" := by
  refine ⟨by decide, by decide, by decide, by decide, by decide⟩

/-- C3 (amended): every completed invocation emits exactly 25 fields in
the stated order; in the `scrape_metrics_psutil_reduced` variant every
missing process slot renders as the sentinel pair `("-.", "0.00")` and all
metric values are 2-decimal, while in the `get_metrics_psutil` variant a
missing slot renders as a pair of empty strings (its real pair values
arrive pre-formatted to 1 decimal). -/
theorem c3_amended_record_format :
    (∀ (ts : String) (cpu mem : ℚ) (p1 p2 p3 p4 p5 q1 q2 q3 q4 q5 : String × ℚ)
        (act : Int) (rps : ℚ),
      build_row_reduced ts cpu mem [p1, p2, p3, p4, p5] [q1, q2, q3, q4, q5] act rps =
        [ts, fmt2 cpu,
         p1.1, fmt2 p1.2, p2.1, fmt2 p2.2, p3.1, fmt2 p3.2, p4.1, fmt2 p4.2, p5.1, fmt2 p5.2,
         fmt2 mem,
         q1.1, fmt2 q1.2, q2.1, fmt2 q2.2, q3.1, fmt2 q3.2, q4.1, fmt2 q4.2, q5.1, fmt2 q5.2,
         toString act, fmt2 rps]) ∧
    (∀ (ts : String) (cpu mem : ℚ) (ce me : List PEntry) (act : Int) (rps : ℚ),
      (main_row_reduced ts cpu mem ce me act rps).length = 25) ∧
    (∀ (ts : String) (cpu mem : ℚ) (tc tm : List (String × String)) (act : Int) (rps : ℚ),
      (main_row_gm ts cpu mem tc tm act rps).length = 25) ∧
    (∀ (ts : String) (cpu mem : ℚ) (ce me : List PEntry) (act : Int) (rps : ℚ) (i : Nat),
      i < 5 → ce.length ≤ i →
      (main_row_reduced ts cpu mem ce me act rps).getD (2 + 2 * i) "" = "-." ∧
      (main_row_reduced ts cpu mem ce me act rps).getD (3 + 2 * i) "" = "0.00") ∧
    (∀ (ts : String) (cpu mem : ℚ) (ce me : List PEntry) (act : Int) (rps : ℚ) (i : Nat),
      i < 5 → me.length ≤ i →
      (main_row_reduced ts cpu mem ce me act rps).getD (13 + 2 * i) "" = "-." ∧
      (main_row_reduced ts cpu mem ce me act rps).getD (14 + 2 * i) "" = "0.00") ∧
    (∀ (ts : String) (cpu mem : ℚ) (tc tm : List (String × String)) (act : Int) (rps : ℚ)
        (i : Nat), i < 5 → tc.length ≤ i →
      (main_row_gm ts cpu mem tc tm act rps).getD (2 + 2 * i) "" = "" ∧
      (main_row_gm ts cpu mem tc tm act rps).getD (3 + 2 * i) "" = "") := by
  have hcpu : ∀ ce : List PEntry, (padTop (get_top_processes_by_cpu ce 5) 5).length = 5 :=
    fun ce => padTop_get_top_length ce 5
  have hmem : ∀ me : List PEntry, (padTop (get_top_processes_by_memory me 5) 5).length = 5 :=
    fun me => by rw [get_top_mem_eq_cpu]; exact padTop_get_top_length me 5
  refine ⟨?_, ?_, ?_, ?_, ?_, ?_⟩
  · intro ts cpu mem p1 p2 p3 p4 p5 q1 q2 q3 q4 q5 act rps
    rfl
  · intro ts cpu mem ce me act rps
    simp [main_row_reduced, build_row_reduced, List.length_append, pairFields_length,
      hcpu ce, hmem me]
  · intro ts cpu mem tc tm act rps
    have hgm : ∀ top : List (String × String), (top_fields_gm top).length = 10 := by
      intro top
      simp only [top_fields_gm]
      rw [show List.range 5 = [0, 1, 2, 3, 4] from rfl]
      simp only [List.foldr]
      rcases top[0]? with _ | p0 <;> rcases top[1]? with _ | p1 <;>
        rcases top[2]? with _ | p2 <;> rcases top[3]? with _ | p3 <;>
        rcases top[4]? with _ | p4 <;> rfl
    simp [main_row_gm, List.length_append, hgm]
  · intro ts cpu mem ce me act rps i hi hce
    have hpos := build_row_reduced_getD ts cpu mem
      (padTop (get_top_processes_by_cpu ce 5) 5)
      (padTop (get_top_processes_by_memory me 5) 5) act rps (hcpu ce) (hmem me) i hi
    have hsent : (padTop (get_top_processes_by_cpu ce 5) 5).getD i ("", 0) = ("-.", 0) :=
      padTop_sentinel_slot ce 5 i hi hce
    refine ⟨?_, ?_⟩
    · rw [show main_row_reduced ts cpu mem ce me act rps = build_row_reduced ts cpu mem
          (padTop (get_top_processes_by_cpu ce 5) 5)
          (padTop (get_top_processes_by_memory me 5) 5) act rps from rfl,
        hpos.1, hsent]
    · rw [show main_row_reduced ts cpu mem ce me act rps = build_row_reduced ts cpu mem
          (padTop (get_top_processes_by_cpu ce 5) 5)
          (padTop (get_top_processes_by_memory me 5) 5) act rps from rfl,
        hpos.2.1, hsent]
      decide
  · intro ts cpu mem ce me act rps i hi hme
    have hpos := build_row_reduced_getD ts cpu mem
      (padTop (get_top_processes_by_cpu ce 5) 5)
      (padTop (get_top_processes_by_memory me 5) 5) act rps (hcpu ce) (hmem me) i hi
    have hsent : (padTop (get_top_processes_by_memory me 5) 5).getD i ("", 0) = ("-.", 0) := by
      rw [get_top_mem_eq_cpu]
      exact padTop_sentinel_slot me 5 i hi hme
    refine ⟨?_, ?_⟩
    · rw [show main_row_reduced ts cpu mem ce me act rps = build_row_reduced ts cpu mem
          (padTop (get_top_processes_by_cpu ce 5) 5)
          (padTop (get_top_processes_by_memory me 5) 5) act rps from rfl,
        hpos.2.2.1, hsent]
    · rw [show main_row_reduced ts cpu mem ce me act rps = build_row_reduced ts cpu mem
          (padTop (get_top_processes_by_cpu ce 5) 5)
          (padTop (get_top_processes_by_memory me 5) 5) act rps from rfl,
        hpos.2.2.2, hsent]
      decide
  · intro ts cpu mem tc tm act rps i hi h
    interval_cases i
    · rcases tc with _ | ⟨p1, tc⟩
      · exact ⟨rfl, rfl⟩
      · simp at h
    · rcases tc with _ | ⟨p1, tc⟩
      · exact ⟨rfl, rfl⟩
      rcases tc with _ | ⟨p2, tc⟩
      · exact ⟨rfl, rfl⟩
      · simp at h
    · rcases tc with _ | ⟨p1, tc⟩
      · exact ⟨rfl, rfl⟩
      rcases tc with _ | ⟨p2, tc⟩
      · exact ⟨rfl, rfl⟩
      rcases tc with _ | ⟨p3, tc⟩
      · exact ⟨rfl, rfl⟩
      · simp at h
    · rcases tc with _ | ⟨p1, tc⟩
      · exact ⟨rfl, rfl⟩
      rcases tc with _ | ⟨p2, tc⟩
      · exact ⟨rfl, rfl⟩
      rcases tc with _ | ⟨p3, tc⟩
      · exact ⟨rfl, rfl⟩
      rcases tc with _ | ⟨p4, tc⟩
      · exact ⟨rfl, rfl⟩
      · simp at h
    · rcases tc with _ | ⟨p1, tc⟩
      · exact ⟨rfl, rfl⟩
      rcases tc with _ | ⟨p2, tc⟩
      · exact ⟨rfl, rfl⟩
      rcases tc with _ | ⟨p3, tc⟩
      · exact ⟨rfl, rfl⟩
      rcases tc with _ | ⟨p4, tc⟩
      · exact ⟨rfl, rfl⟩
      rcases tc with _ | ⟨p5, tc⟩
      · exact ⟨rfl, rfl⟩
      · simp at h

/-- Witness for C3 (amended): the spec's formatted-record scenario — one
real top-CPU process `("nginx", 4.5)` under `cpu_usage = 12.3` — has 25
fields, `"12.30"` at index 1, `"nginx"`/`"4.50"` at indices 2/3, and the
sentinel pair at the second CPU slot. -/
theorem c3_amended_record_format_witness :
    (main_row_reduced "ts" (mkRat 123 10) 0 [PEntry.ok "nginx" (mkRat 9 2)] [] 7 0).length = 25 ∧
      (main_row_reduced "ts" (mkRat 123 10) 0 [PEntry.ok "nginx" (mkRat 9 2)] [] 7 0).getD 4 "" = "-." ∧
      (main_row_reduced "ts" (mkRat 123 10) 0 [PEntry.ok "nginx" (mkRat 9 2)] [] 7 0).getD 5 "" = "0.00" ∧
      (main_row_reduced "ts" (mkRat 123 10) 0 [PEntry.ok "nginx" (mkRat 9 2)] [] 7 0).getD 1 "" = "12.30" ∧
      (main_row_reduced "ts" (mkRat 123 10) 0 [PEntry.ok "nginx" (mkRat 9 2)] [] 7 0).getD 2 "" = "nginx" ∧
      (main_row_reduced "ts" (mkRat 123 10) 0 [PEntry.ok "nginx" (mkRat 9 2)] [] 7 0).getD 3 "" = "4.50" := by
  have h2 := c3_amended_record_format.2.1 "ts" (mkRat 123 10) 0 [PEntry.ok "nginx" (mkRat 9 2)] [] 7 0
  have h4 := c3_amended_record_format.2.2.2.1 "ts" (mkRat 123 10) 0 [PEntry.ok "nginx" (mkRat 9 2)] [] 7 0
    1 (by decide) (by decide)
  refine ⟨h2, ?_, ?_, by decide, by decide, by decide⟩
  · have := h4.1
    norm_num at this ⊢
    exact this
  · have := h4.2
    norm_num at this ⊢
    exact this

/-! ### ProcessTableParser theorems -/

theorem drop_append_length {α : Type} (a b : List α) (k : Nat) :
    (a ++ b).drop (a.length + k) = b.drop k := by
  induction a with
  | nil => simp
  | cons x a ih =>
    have harith : (x :: a).length + k = (a.length + k) + 1 := by
      simp
      omega
    rw [harith, List.cons_append, List.drop_succ_cons, ih]

/-- A header line (stripped form starting with `"PID"`) cannot match the
memory-summary pattern. -/
theorem matchMemLine_PID (s : List Char) (h : startsWithL ("PID").toList s = true) :
    matchMemLine s = none := by
  rcases s with _ | ⟨c, s⟩
  · simp [startsWithL, dropLit] at h
  · by_cases hc : ('P' : Char) = c
    · subst hc
      have hMP : ¬ (('M' : Char) = 'P') := by decide
      simp [matchMemLine, dropLit, hMP]
    · exfalso
      simp [startsWithL, dropLit, hc] at h

/-- Lines that neither match the summary pattern nor open the header are
scanned past, preserving the aggregate accumulator. -/
theorem memScanAux_append_skip (pre rest : List (List Char)) (i : Nat) (acc : ℚ)
    (hpre : ∀ l ∈ pre, matchMemLine (pyStrip l) = none ∧
      startsWithL ("PID").toList (pyStrip l) = false) :
    memScanAux (pre ++ rest) i acc = memScanAux rest (i + pre.length) acc := by
  induction pre generalizing i with
  | nil => simp
  | cons l pre ih =>
    have h := hpre l (by simp)
    have htail : ∀ l' ∈ pre, matchMemLine (pyStrip l') = none ∧
        startsWithL ("PID").toList (pyStrip l') = false :=
      fun l' hl' => hpre l' (by simp [hl'])
    rw [List.cons_append]
    simp only [memScanAux, h.1, h.2]
    have harith : i + (l :: pre).length = (i + 1) + pre.length := by
      simp only [List.length_cons]
      omega
    rw [harith]
    exact ih (i + 1) htail

/-- Scanning stops at the header line, returning its index and the
accumulated aggregate. -/
theorem memScanAux_header (hline : List Char) (rest : List (List Char)) (i : Nat) (acc : ℚ)
    (hh : startsWithL ("PID").toList (pyStrip hline) = true) :
    memScanAux (hline :: rest) i acc = Except.ok (acc, i) := by
  simp only [memScanAux, matchMemLine_PID _ hh, hh]
  simp

/-- A summary-matching line replaces the accumulator with the line's
value. -/
theorem memScanAux_memline (l : List Char) (rest : List (List Char)) (i : Nat) (acc a : ℚ)
    (g : List Char × List Char × List Char × List Char)
    (hm : matchMemLine (pyStrip l) = some g)
    (hv : memLineValue g = Except.ok a)
    (hpid : startsWithL ("PID").toList (pyStrip l) = false) :
    memScanAux (l :: rest) i acc = memScanAux rest (i + 1) a := by
  simp only [memScanAux, hm, hv, hpid]
  rfl

/-- C9. The memory aggregate is `used / total × 100` from the summary line
preceding the header (part 1); when the summary line is absent (part 2) or
unparsable (part 3) the aggregate is `0.0` and the per-process rows are
still parsed. -/
theorem c9_mem_aggregate :
    (∀ (pre mid rows : List (List Char)) (memLine hline : List Char)
        (g : List Char × List Char × List Char × List Char) (total fr used bu : ℚ),
      (∀ l ∈ pre, matchMemLine (pyStrip l) = none ∧
        startsWithL ("PID").toList (pyStrip l) = false) →
      (∀ l ∈ mid, matchMemLine (pyStrip l) = none ∧
        startsWithL ("PID").toList (pyStrip l) = false) →
      matchMemLine (pyStrip memLine) = some g →
      startsWithL ("PID").toList (pyStrip memLine) = false →
      startsWithL ("PID").toList (pyStrip hline) = true →
      pyFloat g.1 = some total → pyFloat g.2.1 = some fr →
      pyFloat g.2.2.1 = some used → pyFloat g.2.2.2 = some bu → total ≠ 0 →
      get_top_mem_info (pre ++ memLine :: (mid ++ hline :: rows)) =
        Except.ok (used / total * 100, parseRows rows)) ∧
    (∀ (pre rows : List (List Char)) (hline : List Char),
      (∀ l ∈ pre, matchMemLine (pyStrip l) = none ∧
        startsWithL ("PID").toList (pyStrip l) = false) →
      startsWithL ("PID").toList (pyStrip hline) = true →
      get_top_mem_info (pre ++ hline :: rows) = Except.ok (0, parseRows rows)) ∧
    (∀ (pre mid rows : List (List Char)) (memLine hline : List Char)
        (g : List Char × List Char × List Char × List Char),
      (∀ l ∈ pre, matchMemLine (pyStrip l) = none ∧
        startsWithL ("PID").toList (pyStrip l) = false) →
      (∀ l ∈ mid, matchMemLine (pyStrip l) = none ∧
        startsWithL ("PID").toList (pyStrip l) = false) →
      matchMemLine (pyStrip memLine) = some g →
      startsWithL ("PID").toList (pyStrip memLine) = false →
      startsWithL ("PID").toList (pyStrip hline) = true →
      (pyFloat g.1 = none ∨ pyFloat g.2.1 = none ∨
        pyFloat g.2.2.1 = none ∨ pyFloat g.2.2.2 = none) →
      get_top_mem_info (pre ++ memLine :: (mid ++ hline :: rows)) =
        Except.ok (0, parseRows rows)) := by
  have hdrop : ∀ (pre mid rows : List (List Char)) (memLine hline : List Char),
      (pre ++ memLine :: (mid ++ hline :: rows)).drop (pre.length + 1 + mid.length + 1) =
        rows := by
    intro pre mid rows memLine hline
    have h1 : pre.length + 1 + mid.length + 1 = pre.length + (1 + mid.length + 1) := by omega
    rw [h1, drop_append_length]
    have h2 : 1 + mid.length + 1 = (mid.length + 1) + 1 := by omega
    rw [h2, List.drop_succ_cons]
    have h3 : mid.length + 1 = mid.length + 1 := rfl
    rw [show mid.length + 1 = mid.length + 1 from rfl]
    have h4 := drop_append_length mid (hline :: rows) 1
    rw [h4, List.drop_succ_cons, List.drop_zero]
  have hdrop2 : ∀ (pre rows : List (List Char)) (hline : List Char),
      (pre ++ hline :: rows).drop (pre.length + 1) = rows := by
    intro pre rows hline
    have h4 := drop_append_length pre (hline :: rows) 1
    rw [h4, List.drop_succ_cons, List.drop_zero]
  refine ⟨?_, ?_, ?_⟩
  · intro pre mid rows memLine hline g total fr used bu hpre hmid hg hgnp hh h1 h2 h3 h4 ht
    have hv : memLineValue g = Except.ok (used / total * 100) := by
      simp [memLineValue, h1, h2, h3, h4, ht]
    have hscan : memScanAux (pre ++ memLine :: (mid ++ hline :: rows)) 0 0 =
        Except.ok (used / total * 100, pre.length + 1 + mid.length) := by
      rw [memScanAux_append_skip pre _ 0 0 hpre,
        memScanAux_memline memLine _ _ _ _ g hg hv hgnp,
        memScanAux_append_skip mid _ _ _ hmid,
        memScanAux_header hline rows _ _ hh]
      congr 2
      omega
    simp only [get_top_mem_info, hscan]
    rw [show pre.length + 1 + mid.length + 1 = pre.length + 1 + mid.length + 1 from rfl,
      hdrop pre mid rows memLine hline]
  · intro pre rows hline hpre hh
    have hscan : memScanAux (pre ++ hline :: rows) 0 0 = Except.ok (0, pre.length) := by
      rw [memScanAux_append_skip pre _ 0 0 hpre, memScanAux_header hline rows _ _ hh]
      congr 2
      omega
    simp only [get_top_mem_info, hscan]
    rw [hdrop2 pre rows hline]
  · intro pre mid rows memLine hline g hpre hmid hg hgnp hh hbad
    have hv : memLineValue g = Except.ok 0 := by
      rcases hbad with h1 | h1 | h1 | h1
      · simp [memLineValue, h1]
      · rcases hx : pyFloat g.1 with _ | t <;> simp [memLineValue, hx, h1]
      · rcases hx : pyFloat g.1 with _ | t <;>
          rcases hy : pyFloat g.2.1 with _ | u <;> simp [memLineValue, hx, hy, h1]
      · rcases hx : pyFloat g.1 with _ | t <;>
          rcases hy : pyFloat g.2.1 with _ | u <;>
          rcases hz : pyFloat g.2.2.1 with _ | w <;> simp [memLineValue, hx, hy, hz, h1]
    have hscan : memScanAux (pre ++ memLine :: (mid ++ hline :: rows)) 0 0 =
        Except.ok (0, pre.length + 1 + mid.length) := by
      rw [memScanAux_append_skip pre _ 0 0 hpre,
        memScanAux_memline memLine _ _ _ _ g hg hv hgnp,
        memScanAux_append_skip mid _ _ _ hmid,
        memScanAux_header hline rows _ _ hh]
      congr 2
      omega
    simp only [get_top_mem_info, hscan]
    rw [hdrop pre mid rows memLine hline]

/-- Witness for C9 at a concrete four-line `top` dump: the aggregate is
`25.0 / 100.0 × 100 = 25` and the one full-width process row is kept with
its `%MEM` column while the short row is skipped. -/
theorem c9_mem_aggregate_witness :
    get_top_mem_info
        ((["top - x", "Tasks: 1",
           "MiB Mem :  100.0 total,  50.0 free,   25.0 used,   25.0 buff/cache",
           "  PID USER      PR  NI    VIRT    RES    SHR S  %CPU  %MEM     TIME+ COMMAND",
           "  1 root 20 0 100 50 10 S 1.0 2.5 0:00.1 /sbin/init split here",
           "short line"]).map String.toList) =
      Except.ok (25, [(("/sbin/init split here").toList, ("2.5").toList)]) := by
  have h := c9_mem_aggregate.1
    [("top - x").toList, ("Tasks: 1").toList] []
    [("  1 root 20 0 100 50 10 S 1.0 2.5 0:00.1 /sbin/init split here").toList,
     ("short line").toList]
    ("MiB Mem :  100.0 total,  50.0 free,   25.0 used,   25.0 buff/cache").toList
    ("  PID USER      PR  NI    VIRT    RES    SHR S  %CPU  %MEM     TIME+ COMMAND").toList
    (("100.0").toList, ("50.0").toList, ("25.0").toList, ("25.0").toList)
    100 50 25 25
    (by decide) (by decide) (by decide) (by decide) (by decide)
    (by decide) (by decide) (by decide) (by decide) (by decide)
  refine Eq.trans (by rfl) (h.trans ?_)
  have hval : (25 : ℚ) / 100 * 100 = 25 := by norm_num
  rw [hval]
  rfl

end ScrapeMetrics
